import Mathlib

/-
Verification of the student record-management operations in app.py.

The record store is a JSON file holding a list of student objects. Each
object may lack the grade field (legacy data, backfilled on load) or even
the marks field (malformed data). We model a record as a structure with
optional marks and grade, a storage state as absent, corrupt (present but
unparseable) or stored with a parsed list, and each operation as a function
from storage to an Except value: error models an uncaught Python exception
(such as the KeyError raised when the backfill pass reads a missing marks
field), ok carries the user-visible signal and the resulting storage state.
Marks are modelled as rationals.
-/

/-- One student record as stored in the JSON file. The marks and grade
fields are optional because a stored object may lack them; the code in
app.py reads them dynamically. -/
structure Student where
  name : String
  roll_no : String
  marks : Option ℚ
  grade : Option String
deriving DecidableEq

/-- The state of the backing file students.json: missing, present but not
valid JSON, or a parsed list of records. -/
inductive Storage where
  | absent : Storage
  | corrupt : Storage
  | stored : List Student → Storage
deriving DecidableEq

/-- The user-visible signals the operations emit through the UI shell. -/
inductive Signal where
  | success : Signal
  | warnDuplicate : Signal
  | warnNotFound : Signal
  | errValidation : Signal
deriving DecidableEq

/-- calculate_grade from app.py lines 11 to 21. -/
def calculate_grade (marks : ℚ) : String :=
  if marks ≥ 90 then "A"
  else if marks ≥ 80 then "B"
  else if marks ≥ 70 then "C"
  else if marks ≥ 60 then "D"
  else "F"

/-- One step of the backfill loop in load_students (lines 38 to 41): a
record that already has a grade is untouched; one without a grade gets
calculate_grade of float of its marks field, and reading a missing marks
field raises (KeyError), modelled as error. -/
def backfillRecord (s : Student) : Except Unit Student :=
  match s.grade with
  | some _ => Except.ok s
  | none =>
    match s.marks with
    | some m => Except.ok ⟨s.name, s.roll_no, s.marks, some (calculate_grade m)⟩
    | none => Except.error ()

/-- The backfill loop of load_students applied to the whole list, in order,
stopping at the first raised exception. -/
def backfill_all : List Student → Except Unit (List Student)
  | [] => Except.ok []
  | s :: rest =>
    match backfillRecord s with
    | Except.error e => Except.error e
    | Except.ok s₂ =>
      match backfill_all rest with
      | Except.error e => Except.error e
      | Except.ok rest₂ => Except.ok (s₂ :: rest₂)

/-- load_students from app.py lines 24 to 45. A missing file yields the
empty list; an unparseable file is swallowed (except JSONDecodeError: pass)
and also yields the empty list; a parsed list is backfilled, and the
corrected list is saved back only when some record was missing a grade
(the rerecord flag). The returned pair is the in-memory list and the
storage state after the call. -/
def load_students (st : Storage) : Except Unit (List Student × Storage) :=
  match st with
  | Storage.absent => Except.ok ([], Storage.absent)
  | Storage.corrupt => Except.ok ([], Storage.corrupt)
  | Storage.stored ss =>
    match backfill_all ss with
    | Except.error e => Except.error e
    | Except.ok ss₂ =>
      if ss.any (fun s => s.grade.isNone) then
        Except.ok (ss₂, Storage.stored ss₂)
      else
        Except.ok (ss₂, Storage.stored ss)

/-- save_students from app.py lines 48 to 50: overwrites the file with the
serialized list. -/
def save_students (ss : List Student) : Storage :=
  Storage.stored ss

/-- add_student from app.py lines 53 to 67. -/
def add_student (name roll_no : String) (marks : ℚ) (st : Storage) :
    Except Unit (Signal × Storage) :=
  match load_students st with
  | Except.error e => Except.error e
  | Except.ok (students, st₂) =>
    if students.any (fun s => s.roll_no == roll_no) then
      Except.ok (Signal.warnDuplicate, st₂)
    else
      Except.ok (Signal.success,
        save_students
          (students ++ [⟨name, roll_no, some marks, some (calculate_grade marks)⟩]))

/-- One cleaned row of a bulk-import batch, after the dataframe stage of
upload_file (lines 81 to 83) has projected to the three required columns,
dropped nulls and coerced marks to a number. -/
structure Row where
  name : String
  roll_no : String
  marks : ℚ
deriving DecidableEq

/-- The record built from a cleaned row: line 84 computes its grade and
line 86 turns it into a dict with the four keys. -/
def rowToRecord (r : Row) : Student :=
  ⟨r.name, r.roll_no, some r.marks, some (calculate_grade r.marks)⟩

/-- The merge loop of upload_file (lines 90 to 96): rows whose roll_no is
in the set of roll numbers taken from the existing records before the loop
are skipped, the others are appended in order; the set is never updated
inside the loop. -/
def import_loop (existing_rolls : List String) (existing : List Student)
    (added skipped : Nat) : List Row → List Student × Nat × Nat
  | [] => (existing, added, skipped)
  | r :: rest =>
    if r.roll_no ∈ existing_rolls then
      import_loop existing_rolls existing added (skipped + 1) rest
    else
      import_loop existing_rolls (existing ++ [rowToRecord r]) (added + 1) skipped rest

/-- upload_file from app.py lines 86 to 99, starting from the cleaned rows
(the file-parsing and column-validation stages of lines 70 to 84 are the
external dataframe library). Returns the reported added and skipped counts
and the storage state after the single save of the merged list. -/
def upload_file (rows : List Row) (st : Storage) :
    Except Unit (Nat × Nat × Storage) :=
  match load_students st with
  | Except.error e => Except.error e
  | Except.ok (existing, _) =>
    match import_loop (existing.map Student.roll_no) existing 0 0 rows with
    | (merged, added, skipped) =>
      Except.ok (added, skipped, save_students merged)

/-- The update loop of update_student_marks (lines 122 to 128): walk the
list, rewrite the first record whose roll_no matches and return (saving),
none when no record matches. -/
def update_loop (roll : String) (new_marks : ℚ) : List Student → Option (List Student)
  | [] => none
  | s :: rest =>
    if s.roll_no == roll then
      some (⟨s.name, s.roll_no, some new_marks, some (calculate_grade new_marks)⟩ :: rest)
    else
      match update_loop roll new_marks rest with
      | none => none
      | some rest₂ => some (s :: rest₂)

/-- update_student_marks from app.py lines 114 to 129 (the widget reads
are the shell; the body from the range check on line 118 onward). -/
def update_student_marks (roll : String) (new_marks : ℚ) (st : Storage) :
    Except Unit (Signal × Storage) :=
  if new_marks < 0 ∨ 100 < new_marks then
    Except.ok (Signal.errValidation, st)
  else
    match load_students st with
    | Except.error e => Except.error e
    | Except.ok (students, st₂) =>
      match update_loop roll new_marks students with
      | some students₂ => Except.ok (Signal.success, save_students students₂)
      | none => Except.ok (Signal.warnNotFound, st₂)

/-- delete_student from app.py lines 131 to 140: filter out every record
with the given roll_no; when nothing was removed warn and do not save. -/
def delete_student (roll : String) (st : Storage) :
    Except Unit (Signal × Storage) :=
  match load_students st with
  | Except.error e => Except.error e
  | Except.ok (students, st₂) =>
    let new_students := students.filter (fun s => s.roll_no != roll)
    if new_students.length == students.length then
      Except.ok (Signal.warnNotFound, st₂)
    else
      Except.ok (Signal.success, save_students new_students)

/-- A mutating operation of the dashboard: a manual add or a bulk import. -/
inductive Op where
  | add : String → String → ℚ → Op
  | imp : List Row → Op
deriving DecidableEq

/-- Running one operation against the store. An uncaught exception aborts
the Python callback before any save, leaving the file as it was. -/
def applyOp (st : Storage) (op : Op) : Storage :=
  match op with
  | Op.add n r m =>
    match add_student n r m st with
    | Except.ok (_, st₂) => st₂
    | Except.error _ => st
  | Op.imp rows =>
    match upload_file rows st with
    | Except.ok (_, _, st₂) => st₂
    | Except.error _ => st

/-- Running a sequence of operations against the store. -/
def runOps (st : Storage) (ops : List Op) : Storage :=
  ops.foldl applyOp st

/-- The roll numbers recorded in the backing file. -/
def rolls : Storage → List String
  | Storage.stored ss => ss.map Student.roll_no
  | _ => []

/-- The uniqueness invariant: no two stored records share a roll number. -/
abbrev uniqueRolls (st : Storage) : Prop :=
  (rolls st).Nodup

/-- An import batch with no roll number repeated inside the batch itself
(a manual add always satisfies this vacuously). -/
def batchNodup : Op → Prop
  | Op.imp rows => (rows.map Row.roll_no).Nodup
  | Op.add _ _ _ => True

instance : DecidablePred batchNodup := fun op =>
  match op with
  | Op.imp rows => inferInstanceAs (Decidable ((rows.map Row.roll_no).Nodup))
  | Op.add _ _ _ => Decidable.isTrue trivial

/-- The total backfill function: what one pass of the load-time loop does
to a record that does not make it raise. -/
def fillGrade (s : Student) : Student :=
  match s.grade with
  | some _ => s
  | none =>
    match s.marks with
    | some m => ⟨s.name, s.roll_no, s.marks, some (calculate_grade m)⟩
    | none => s

theorem backfill_all_id (ss : List Student) (h : ∀ s ∈ ss, s.grade.isSome) :
    backfill_all ss = Except.ok ss := by
  induction ss with
  | nil => rfl
  | cons s rest ih =>
    have hrest := ih (fun t ht => h t (by simp [ht]))
    obtain ⟨g, hg⟩ := Option.isSome_iff_exists.mp (h s (by simp))
    simp [backfill_all, backfillRecord, hg, hrest]

theorem load_no_backfill (ss : List Student) (h : ∀ s ∈ ss, s.grade.isSome) :
    load_students (Storage.stored ss) = Except.ok (ss, Storage.stored ss) := by
  have hany : ss.any (fun s => s.grade.isNone) = false := by
    rw [List.any_eq_false]
    intro s hsmem
    obtain ⟨g, hg⟩ := Option.isSome_iff_exists.mp (h s hsmem)
    simp [hg]
  simp [load_students, backfill_all_id ss h, hany]

theorem backfill_all_fill (ss : List Student)
    (h : ∀ s ∈ ss, s.grade = none → s.marks.isSome) :
    backfill_all ss = Except.ok (ss.map fillGrade) := by
  induction ss with
  | nil => rfl
  | cons s rest ih =>
    have hrest := ih (fun t ht => h t (by simp [ht]))
    cases hg : s.grade with
    | some g => simp [backfill_all, backfillRecord, fillGrade, hg, hrest]
    | none =>
      obtain ⟨m, hm⟩ := Option.isSome_iff_exists.mp (h s (by simp) hg)
      simp [backfill_all, backfillRecord, fillGrade, hg, hm, hrest]

/-- C2: calculate_grade is total and deterministic over the rationals,
always returns one of A, B, C, D, F, and matches the band table with
lower bounds inclusive. -/
theorem C2_grade (m : ℚ) :
    (calculate_grade m = "A" ∨ calculate_grade m = "B" ∨ calculate_grade m = "C" ∨
      calculate_grade m = "D" ∨ calculate_grade m = "F") ∧
    (90 ≤ m → calculate_grade m = "A") ∧
    (80 ≤ m ∧ m < 90 → calculate_grade m = "B") ∧
    (70 ≤ m ∧ m < 80 → calculate_grade m = "C") ∧
    (60 ≤ m ∧ m < 70 → calculate_grade m = "D") ∧
    (m < 60 → calculate_grade m = "F") := by
  unfold calculate_grade
  split_ifs with h1 h2 h3 h4 <;>
    refine ⟨by tauto, fun h => ?_, fun h => ?_, fun h => ?_, fun h => ?_, fun h => ?_⟩ <;>
    first
      | rfl
      | (obtain ⟨ha, hb⟩ := h; linarith)
      | linarith

/-- C2 witness: the boundary values named in the claim. -/
theorem C2_grade_witness :
    calculate_grade 90 = "A" ∧ calculate_grade (89.99 : ℚ) = "B" ∧
    calculate_grade 60 = "D" ∧ calculate_grade (59.99 : ℚ) = "F" :=
  ⟨(C2_grade 90).2.1 (by norm_num),
   (C2_grade (89.99 : ℚ)).2.2.1 (by norm_num),
   (C2_grade 60).2.2.2.2.1 (by norm_num),
   (C2_grade (59.99 : ℚ)).2.2.2.2.2 (by norm_num)⟩

/-- C8: load returns the empty collection when the backing file is absent,
and also when the file exists but cannot be parsed; in both cases no error
surfaces and the file is left as it was. -/
theorem C8_load_recovery :
    load_students Storage.absent = Except.ok ([], Storage.absent) ∧
    load_students Storage.corrupt = Except.ok ([], Storage.corrupt) :=
  ⟨rfl, rfl⟩

/-- C10: a parseable stored collection holding a record with neither a
grade nor a marks field makes load raise (the backfill pass reads the
marks field unconditionally once the grade is missing), instead of
returning a collection or applying the silent-recovery policy. -/
theorem C10_load_error :
    load_students (Storage.stored [⟨"X", "R1", none, none⟩]) = Except.error () :=
  rfl

/-- C9: for a stored collection in which every record already has a grade
field, the load-then-save round trip leaves the storage content unchanged. -/
theorem C9_roundtrip (ss : List Student) (h : ∀ s ∈ ss, s.grade.isSome) :
    (load_students (Storage.stored ss)).map (fun p => save_students p.1) =
      Except.ok (Storage.stored ss) := by
  rw [load_no_backfill ss h]
  rfl

/-- C9 witness at a one-record collection. -/
theorem C9_roundtrip_witness :
    (load_students (Storage.stored [⟨"Alice", "R1", some 95, some "A"⟩])).map
        (fun p => save_students p.1) =
      Except.ok (Storage.stored [⟨"Alice", "R1", some 95, some "A"⟩]) :=
  C9_roundtrip [⟨"Alice", "R1", some 95, some "A"⟩] (by decide)

/-- C3 counterexample: a stored record whose grade field is present but
inconsistent with its marks (grade A, marks 10) survives a load unchanged,
although the grade derived from its marks is F. -/
theorem C3_counterexample :
    load_students (Storage.stored [⟨"X", "R1", some 10, some "A"⟩]) =
      Except.ok ([⟨"X", "R1", some 10, some "A"⟩],
        Storage.stored [⟨"X", "R1", some 10, some "A"⟩]) ∧
    calculate_grade 10 = "F" ∧ "A" ≠ "F" :=
  ⟨rfl, rfl, by decide⟩

/-- C3 amended: load fills in the derived grade exactly for the records
missing a grade field (those records must carry a marks field or load
raises) and persists the corrected collection precisely when at least one
record was backfilled; records whose grade field is present are returned
unchanged, even when that grade disagrees with the one derived from their
marks. -/
theorem C3_backfill (ss : List Student)
    (h : ∀ s ∈ ss, s.grade = none → s.marks.isSome) :
    load_students (Storage.stored ss) =
      Except.ok (ss.map fillGrade,
        if ss.any (fun s => s.grade.isNone) then Storage.stored (ss.map fillGrade)
        else Storage.stored ss) ∧
    (∀ s ∈ ss.map fillGrade, s.grade.isSome) ∧
    (∀ s ∈ ss, ∀ m, s.grade = none → s.marks = some m →
      (fillGrade s).grade = some (calculate_grade m)) ∧
    (∀ s ∈ ss, ∀ g, s.grade = some g → (fillGrade s).grade = some g) := by
  refine ⟨?_, ?_, ?_, ?_⟩
  · have hb := backfill_all_fill ss h
    cases hc : ss.any (fun s => s.grade.isNone) with
    | true => simp [load_students, hb, hc]
    | false => simp [load_students, hb, hc]
  · intro s hs
    obtain ⟨t, ht, rfl⟩ := List.mem_map.mp hs
    cases hg : t.grade with
    | some g => simp [fillGrade, hg]
    | none =>
      obtain ⟨m, hm⟩ := Option.isSome_iff_exists.mp (h t ht hg)
      simp [fillGrade, hg, hm]
  · intro s _ m hg hm
    simp [fillGrade, hg, hm]
  · intro s _ g hg
    simp [fillGrade, hg]

/-- C3 witness: a record missing its grade field is backfilled from its
marks and the corrected collection is persisted. -/
theorem C3_backfill_witness :
    load_students (Storage.stored [⟨"N", "R2", some 75, none⟩]) =
      Except.ok ([⟨"N", "R2", some 75, some "C"⟩],
        Storage.stored [⟨"N", "R2", some 75, some "C"⟩]) := by
  have h := (C3_backfill [⟨"N", "R2", some 75, none⟩] (by decide)).1
  rw [h]
  rfl

/-- C5 counterexample: when the stored collection holds a record missing
its grade field, an add with a duplicate roll number still warns, but the
stored bytes change: the load step backfills the grade and persists before
the duplicate check runs. -/
theorem C5_counterexample :
    add_student "Y" "R1" 60 (Storage.stored [⟨"X", "R1", some 50, none⟩]) =
      Except.ok (Signal.warnDuplicate, Storage.stored [⟨"X", "R1", some 50, some "F"⟩]) ∧
    Storage.stored [⟨"X", "R1", some 50, some "F"⟩] ≠
      Storage.stored [⟨"X", "R1", some 50, none⟩] :=
  ⟨rfl, by decide⟩

/-- C5 amended: for a stored collection in which every record has a grade
field (so the load step performs no backfill write), add with a duplicate
roll number warns and leaves storage unchanged, and add with a fresh roll
number appends exactly one record with the derived grade, persists and
signals success, all pre-existing records unchanged. -/
theorem C5_add (name roll : String) (marks : ℚ) (ss : List Student)
    (_hm : 0 ≤ marks ∧ marks ≤ 100)
    (hg : ∀ s ∈ ss, s.grade.isSome) :
    ((∃ s ∈ ss, s.roll_no = roll) →
      add_student name roll marks (Storage.stored ss) =
        Except.ok (Signal.warnDuplicate, Storage.stored ss)) ∧
    ((∀ s ∈ ss, s.roll_no ≠ roll) →
      add_student name roll marks (Storage.stored ss) =
        Except.ok (Signal.success,
          Storage.stored
            (ss ++ [⟨name, roll, some marks, some (calculate_grade marks)⟩]))) := by
  have hl := load_no_backfill ss hg
  constructor
  · rintro ⟨s, hsmem, hsroll⟩
    have hany : ss.any (fun s => s.roll_no == roll) = true :=
      List.any_eq_true.mpr ⟨s, hsmem, by simp [hsroll]⟩
    simp [add_student, hl, hany]
  · intro hnone
    have hany : ss.any (fun s => s.roll_no == roll) = false := by
      rw [List.any_eq_false]
      intro s hsmem
      simpa using hnone s hsmem
    simp [add_student, hl, hany, save_students]

/-- C5 witness: duplicate add against a clean one-record store warns and
leaves the store as it was. -/
theorem C5_add_witness :
    add_student "Bob" "R1" 70 (Storage.stored [⟨"Alice", "R1", some 95, some "A"⟩]) =
      Except.ok (Signal.warnDuplicate, Storage.stored [⟨"Alice", "R1", some 95, some "A"⟩]) :=
  (C5_add "Bob" "R1" 70 [⟨"Alice", "R1", some 95, some "A"⟩] (by norm_num) (by decide)).1
    ⟨⟨"Alice", "R1", some 95, some "A"⟩, by simp, rfl⟩

theorem update_loop_none (roll : String) (m : ℚ) (ss : List Student)
    (h : ∀ t ∈ ss, t.roll_no ≠ roll) :
    update_loop roll m ss = none := by
  induction ss with
  | nil => rfl
  | cons s rest ih =>
    have hs : (s.roll_no == roll) = false := by simpa using h s (by simp)
    simp [update_loop, hs, ih (fun t ht => h t (by simp [ht]))]

theorem update_loop_found (roll : String) (m : ℚ) (pre post : List Student) (s : Student)
    (hpre : ∀ t ∈ pre, t.roll_no ≠ roll) (hs : s.roll_no = roll) :
    update_loop roll m (pre ++ s :: post) =
      some (pre ++ ⟨s.name, s.roll_no, some m, some (calculate_grade m)⟩ :: post) := by
  induction pre with
  | nil => simp [update_loop, hs]
  | cons t rest ih =>
    have ht : (t.roll_no == roll) = false := by simpa using hpre t (by simp)
    simp [update_loop, ht, ih (fun u hu => hpre u (by simp [hu]))]

/-- C6 counterexample: when the stored collection holds a record missing
its grade field, an update targeting an absent roll number still warns
not-found, but storage changes: the load step backfilled the grade and
persisted before the search ran. -/
theorem C6_counterexample :
    update_student_marks "R9" 70 (Storage.stored [⟨"X", "R1", some 50, none⟩]) =
      Except.ok (Signal.warnNotFound, Storage.stored [⟨"X", "R1", some 50, some "F"⟩]) ∧
    Storage.stored [⟨"X", "R1", some 50, some "F"⟩] ≠
      Storage.stored [⟨"X", "R1", some 50, none⟩] :=
  ⟨rfl, by decide⟩

/-- C6 amended: for a stored collection in which every record has a grade
field (so the load step performs no backfill write), an update with
new_marks in range and an absent roll number warns not-found and leaves
storage unchanged; with the roll number present, exactly the first
matching record gets the new marks and the grade recomputed from them,
every other record, including later records carrying the same roll
number, is unchanged, the collection is persisted, and success is
signalled. -/
theorem C6_update (roll : String) (m : ℚ) (ss : List Student)
    (hm : 0 ≤ m ∧ m ≤ 100)
    (hg : ∀ t ∈ ss, t.grade.isSome) :
    ((∀ t ∈ ss, t.roll_no ≠ roll) →
      update_student_marks roll m (Storage.stored ss) =
        Except.ok (Signal.warnNotFound, Storage.stored ss)) ∧
    (∀ pre s post, ss = pre ++ s :: post →
      (∀ t ∈ pre, t.roll_no ≠ roll) → s.roll_no = roll →
      update_student_marks roll m (Storage.stored ss) =
        Except.ok (Signal.success,
          Storage.stored
            (pre ++ ⟨s.name, s.roll_no, some m, some (calculate_grade m)⟩ :: post))) := by
  have hv : ¬(m < 0 ∨ 100 < m) := by push_neg; exact ⟨hm.1, hm.2⟩
  have hl := load_no_backfill ss hg
  constructor
  · intro hnone
    simp [update_student_marks, hv, hl, update_loop_none roll m ss hnone]
  · rintro pre s post rfl hpre hs
    simp [update_student_marks, hv, hl,
      update_loop_found roll m pre post s hpre hs, save_students]

/-- C6 witness: updating the marks of the only record recomputes its
grade and persists. -/
theorem C6_update_witness :
    update_student_marks "R1" 82 (Storage.stored [⟨"Ann", "R1", some 50, some "F"⟩]) =
      Except.ok (Signal.success, Storage.stored [⟨"Ann", "R1", some 82, some "B"⟩]) := by
  have h := (C6_update "R1" 82 [⟨"Ann", "R1", some 50, some "F"⟩] (by norm_num)
      (by decide)).2 [] ⟨"Ann", "R1", some 50, some "F"⟩ [] rfl (by simp) rfl
  exact h

theorem filter_out_unique_length (roll : String) (ss : List Student)
    (hnodup : (ss.map Student.roll_no).Nodup) (t : Student) (ht : t ∈ ss)
    (hroll : t.roll_no = roll) :
    (ss.filter (fun u => u.roll_no != roll)).length + 1 = ss.length := by
  induction ss with
  | nil => cases ht
  | cons s rest ih =>
    rw [List.map_cons, List.nodup_cons] at hnodup
    rcases List.mem_cons.mp ht with rfl | htr
    · have hrest : rest.filter (fun u => u.roll_no != roll) = rest := by
        rw [List.filter_eq_self]
        intro u hu
        have hne : u.roll_no ≠ roll := by
          intro he
          exact hnodup.1 (hroll ▸ he ▸ List.mem_map_of_mem Student.roll_no hu)
        simpa using hne
      simp [List.filter_cons, hroll, hrest]
    · have hlen := ih hnodup.2 htr
      by_cases hs : s.roll_no = roll
      · exact absurd (by rw [hs, ← hroll]; exact List.mem_map_of_mem Student.roll_no htr)
          hnodup.1
      · have hskeep : (s.roll_no != roll) = true := by simpa using hs
        simp only [List.filter_cons, hskeep, if_true, List.length_cons]
        omega

/-- C7 counterexample: with two stored records sharing a roll number (a
state a within-batch duplicated import can produce), delete removes both,
so the persisted length decreases by two, not exactly one. -/
theorem C7_counterexample :
    delete_student "R2" (Storage.stored
        [⟨"C", "R2", some 55, some "F"⟩, ⟨"D", "R2", some 60, some "D"⟩]) =
      Except.ok (Signal.success, Storage.stored []) ∧
    ([] : List Student).length + 1 ≠
      ([⟨"C", "R2", some 55, some "F"⟩, ⟨"D", "R2", some 60, some "D"⟩] : List Student).length :=
  ⟨rfl, by decide⟩

/-- C7 amended: for a stored collection in which every record has a grade
field (so the load step performs no backfill write), delete removes all
records carrying the given roll number, preserving the order of the rest;
with no match it warns not-found and leaves storage unchanged; and when
roll numbers are unique in the collection and the target is present, the
persisted length decreases by exactly one. -/
theorem C7_delete (roll : String) (ss : List Student)
    (hg : ∀ t ∈ ss, t.grade.isSome) :
    ((∀ t ∈ ss, t.roll_no ≠ roll) →
      delete_student roll (Storage.stored ss) =
        Except.ok (Signal.warnNotFound, Storage.stored ss)) ∧
    ((∃ t ∈ ss, t.roll_no = roll) →
      delete_student roll (Storage.stored ss) =
        Except.ok (Signal.success,
          Storage.stored (ss.filter (fun u => u.roll_no != roll)))) ∧
    ((ss.map Student.roll_no).Nodup → (∃ t ∈ ss, t.roll_no = roll) →
      (ss.filter (fun u => u.roll_no != roll)).length + 1 = ss.length) := by
  have hl := load_no_backfill ss hg
  refine ⟨?_, ?_, ?_⟩
  · intro hnone
    have hfe : ss.filter (fun u => u.roll_no != roll) = ss := by
      rw [List.filter_eq_self]
      intro u hu
      simpa using hnone u hu
    simp [delete_student, hl, hfe]
  · rintro ⟨t, ht, hroll⟩
    have hlt : (ss.filter (fun u => u.roll_no != roll)).length < ss.length := by
      refine List.length_filter_lt_length_iff_exists.mpr ⟨t, ht, ?_⟩
      simp [hroll]
    have hne : ((ss.filter (fun u => u.roll_no != roll)).length == ss.length) = false :=
      beq_eq_false_iff_ne.mpr (Nat.ne_of_lt hlt)
    simp [delete_student, hl, hne, save_students]
  · rintro hnodup ⟨t, ht, hroll⟩
    exact filter_out_unique_length roll ss hnodup t ht hroll

/-- C7 witness: deleting an existing unique roll number removes exactly
that record, keeping the rest in order. -/
theorem C7_delete_witness :
    delete_student "R1" (Storage.stored
        [⟨"A", "R1", some 90, some "A"⟩, ⟨"B", "R3", some 70, some "C"⟩]) =
      Except.ok (Signal.success, Storage.stored [⟨"B", "R3", some 70, some "C"⟩]) := by
  have h := (C7_delete "R1"
      [⟨"A", "R1", some 90, some "A"⟩, ⟨"B", "R3", some 70, some "C"⟩]
      (by decide)).2.1 ⟨⟨"A", "R1", some 90, some "A"⟩, by simp, rfl⟩
  exact h

theorem import_loop_spec (rs : List String) (rows : List Row) (ex : List Student)
    (a k : Nat) :
    import_loop rs ex a k rows =
      (ex ++ (rows.filter (fun r => r.roll_no ∉ rs)).map rowToRecord,
        a + (rows.filter (fun r => r.roll_no ∉ rs)).length,
        k + (rows.filter (fun r => r.roll_no ∈ rs)).length) := by
  induction rows generalizing ex a k with
  | nil => simp [import_loop]
  | cons r rest ih =>
    by_cases hr : r.roll_no ∈ rs
    · have h1 : (r :: rest).filter (fun x => x.roll_no ∉ rs) =
          rest.filter (fun x => x.roll_no ∉ rs) := by
        simp [List.filter_cons, hr]
      have h2 : (r :: rest).filter (fun x => x.roll_no ∈ rs) =
          r :: rest.filter (fun x => x.roll_no ∈ rs) := by
        simp [List.filter_cons, hr]
      simp only [import_loop, if_pos hr]
      rw [ih, h1, h2]
      simp only [Prod.mk.injEq, List.length_cons, true_and, and_true]
      all_goals omega
    · have h1 : (r :: rest).filter (fun x => x.roll_no ∉ rs) =
          r :: rest.filter (fun x => x.roll_no ∉ rs) := by
        simp [List.filter_cons, hr]
      have h2 : (r :: rest).filter (fun x => x.roll_no ∈ rs) =
          rest.filter (fun x => x.roll_no ∈ rs) := by
        simp [List.filter_cons, hr]
      simp only [import_loop, if_neg hr]
      rw [ih, h1, h2]
      simp only [Prod.mk.injEq, List.length_cons, List.map_cons, List.append_assoc,
        List.singleton_append, true_and, and_true]
      all_goals omega

/-- C4: for a bulk-import batch of cleaned rows against a loadable store,
rows whose roll number is absent from the pre-existing collection are
appended with their derived grade, in input order, after the existing
records; rows whose roll number is already present are skipped; the merged
collection is what gets persisted (by the single save in the function) and
the reported counts are the numbers of appended and skipped rows. -/
theorem C4_upload (rows : List Row) (st : Storage) (ss : List Student) (st₂ : Storage)
    (h : load_students st = Except.ok (ss, st₂)) :
    upload_file rows st =
      Except.ok
        ((rows.filter (fun r => r.roll_no ∉ ss.map Student.roll_no)).length,
          (rows.filter (fun r => r.roll_no ∈ ss.map Student.roll_no)).length,
          Storage.stored
            (ss ++ (rows.filter (fun r => r.roll_no ∉ ss.map Student.roll_no)).map
              rowToRecord)) := by
  simp [upload_file, h, import_loop_spec, save_students]

/-- C4 witness: a two-row batch against a one-record store appends the
novel row and skips the duplicate, reporting one added and one skipped. -/
theorem C4_upload_witness :
    upload_file [⟨"Bob", "R2", 70⟩, ⟨"Eve", "R1", 50⟩]
        (Storage.stored [⟨"Alice", "R1", some 95, some "A"⟩]) =
      Except.ok (1, 1, Storage.stored
        [⟨"Alice", "R1", some 95, some "A"⟩, ⟨"Bob", "R2", some 70, some "C"⟩]) := by
  have h := C4_upload [⟨"Bob", "R2", 70⟩, ⟨"Eve", "R1", 50⟩]
      (Storage.stored [⟨"Alice", "R1", some 95, some "A"⟩])
      [⟨"Alice", "R1", some 95, some "A"⟩]
      (Storage.stored [⟨"Alice", "R1", some 95, some "A"⟩]) rfl
  exact h

theorem backfillRecord_roll (s s₂ : Student) (h : backfillRecord s = Except.ok s₂) :
    s₂.roll_no = s.roll_no := by
  unfold backfillRecord at h
  cases hg : s.grade with
  | some g => rw [hg] at h; cases h; rfl
  | none =>
    rw [hg] at h
    cases hm : s.marks with
    | some m => rw [hm] at h; cases h; rfl
    | none => rw [hm] at h; cases h

theorem backfill_all_rolls (ss ss₂ : List Student)
    (h : backfill_all ss = Except.ok ss₂) :
    ss₂.map Student.roll_no = ss.map Student.roll_no := by
  induction ss generalizing ss₂ with
  | nil => cases h; rfl
  | cons s rest ih =>
    unfold backfill_all at h
    cases hb : backfillRecord s with
    | error e => rw [hb] at h; cases h
    | ok s₂ =>
      rw [hb] at h
      cases hr : backfill_all rest with
      | error e => rw [hr] at h; cases h
      | ok rest₂ =>
        rw [hr] at h
        cases h
        simp [backfillRecord_roll s s₂ hb, ih rest₂ hr]

theorem load_rolls (st : Storage) (ss : List Student) (st₂ : Storage)
    (h : load_students st = Except.ok (ss, st₂)) :
    ss.map Student.roll_no = rolls st ∧ rolls st₂ = rolls st := by
  cases st with
  | absent => cases h; exact ⟨rfl, rfl⟩
  | corrupt => cases h; exact ⟨rfl, rfl⟩
  | stored l =>
    cases hb : backfill_all l with
    | error e =>
      have he : load_students (Storage.stored l) = Except.error e := by
        simp [load_students, hb]
      rw [he] at h
      cases h
    | ok l₂ =>
      have hl₂ := backfill_all_rolls l l₂ hb
      by_cases ha : l.any (fun s => s.grade.isNone) = true
      · have he : load_students (Storage.stored l) =
            Except.ok (l₂, Storage.stored l₂) := by
          simp [load_students, hb, ha]
        rw [he] at h
        cases h
        exact ⟨hl₂, by simp [rolls, hl₂]⟩
      · have he : load_students (Storage.stored l) =
            Except.ok (l₂, Storage.stored l) := by
          simp [load_students, hb, ha]
        rw [he] at h
        cases h
        exact ⟨hl₂, rfl⟩

theorem add_student_unique (n r : String) (m : ℚ) (st : Storage) (sig : Signal)
    (st₂ : Storage) (h : add_student n r m st = Except.ok (sig, st₂))
    (hu : uniqueRolls st) : uniqueRolls st₂ := by
  cases hl : load_students st with
  | error e =>
    have he : add_student n r m st = Except.error e := by
      simp [add_student, hl]
    rw [he] at h
    cases h
  | ok p =>
    obtain ⟨students, st₁⟩ := p
    obtain ⟨hmap, hst₁⟩ := load_rolls st students st₁ hl
    by_cases ha : students.any (fun s => s.roll_no == r) = true
    · have he : add_student n r m st = Except.ok (Signal.warnDuplicate, st₁) := by
        simp [add_student, hl, ha]
      rw [he] at h
      cases h
      unfold uniqueRolls
      rw [hst₁]
      exact hu
    · have he : add_student n r m st = Except.ok (Signal.success,
          save_students
            (students ++ [⟨n, r, some m, some (calculate_grade m)⟩])) := by
        simp [add_student, hl, ha]
      rw [he] at h
      cases h
      have hnotmem : r ∉ students.map Student.roll_no := by
        intro hmem
        obtain ⟨s, hsmem, hsroll⟩ := List.mem_map.mp hmem
        exact ha (List.any_eq_true.mpr ⟨s, hsmem, by simp [hsroll]⟩)
      have hnodup : (students.map Student.roll_no).Nodup := by
        rw [hmap]
        exact hu
      show (List.map Student.roll_no
        (students ++ [⟨n, r, some m, some (calculate_grade m)⟩])).Nodup
      rw [List.map_append]
      refine List.nodup_append.mpr ⟨hnodup, List.nodup_singleton r, ?_⟩
      intro x hx hx₂
      rw [List.mem_singleton.mp hx₂] at hx
      exact hnotmem hx

theorem upload_file_unique (rows : List Row) (st : Storage) (a k : Nat)
    (st₂ : Storage) (hrows : (rows.map Row.roll_no).Nodup)
    (h : upload_file rows st = Except.ok (a, k, st₂))
    (hu : uniqueRolls st) : uniqueRolls st₂ := by
  cases hl : load_students st with
  | error e =>
    have he : upload_file rows st = Except.error e := by
      simp [upload_file, hl]
    rw [he] at h
    cases h
  | ok p =>
    obtain ⟨existing, st₁⟩ := p
    obtain ⟨hmap, _⟩ := load_rolls st existing st₁ hl
    have he : upload_file rows st = Except.ok
        ((rows.filter (fun r => r.roll_no ∉ existing.map Student.roll_no)).length,
          (rows.filter (fun r => r.roll_no ∈ existing.map Student.roll_no)).length,
          save_students
            (existing ++ (rows.filter
              (fun r => r.roll_no ∉ existing.map Student.roll_no)).map rowToRecord)) := by
      simp [upload_file, hl, import_loop_spec]
    rw [he] at h
    cases h
    have hex : (existing.map Student.roll_no).Nodup := by
      rw [hmap]
      exact hu
    show (List.map Student.roll_no
      (existing ++ (rows.filter
        (fun r => r.roll_no ∉ existing.map Student.roll_no)).map rowToRecord)).Nodup
    rw [List.map_append]
    have hacc : ((rows.filter
        (fun r => r.roll_no ∉ existing.map Student.roll_no)).map rowToRecord).map
          Student.roll_no =
        (rows.filter (fun r => r.roll_no ∉ existing.map Student.roll_no)).map
          Row.roll_no := by
      rw [List.map_map]
      rfl
    rw [hacc]
    refine List.nodup_append.mpr ⟨hex, ?_, ?_⟩
    · exact hrows.sublist (List.Sublist.map Row.roll_no (List.filter_sublist rows))
    · intro x hx hx₂
      obtain ⟨r, hrmem, hrx⟩ := List.mem_map.mp hx₂
      have hrnot := List.of_mem_filter hrmem
      rw [hrx] at hrnot
      exact absurd hx (by simpa using hrnot)

theorem applyOp_unique (st : Storage) (op : Op) (hu : uniqueRolls st)
    (hop : batchNodup op) : uniqueRolls (applyOp st op) := by
  cases op with
  | add n r m =>
    cases h : add_student n r m st with
    | error e =>
      have he : applyOp st (Op.add n r m) = st := by simp [applyOp, h]
      rw [he]
      exact hu
    | ok p =>
      obtain ⟨sig, st₂⟩ := p
      have he : applyOp st (Op.add n r m) = st₂ := by simp [applyOp, h]
      rw [he]
      exact add_student_unique n r m st sig st₂ h hu
  | imp rows =>
    cases h : upload_file rows st with
    | error e =>
      have he : applyOp st (Op.imp rows) = st := by simp [applyOp, h]
      rw [he]
      exact hu
    | ok p =>
      obtain ⟨a, k, st₂⟩ := p
      have he : applyOp st (Op.imp rows) = st₂ := by simp [applyOp, h]
      rw [he]
      exact upload_file_unique rows st a k st₂ hop h hu

/-- C1 counterexample: an import whose batch repeats a roll number inside
itself breaks uniqueness: starting from an empty store, importing two rows
both carrying roll number R2 appends both, because the set of existing
roll numbers is computed before the loop and never updated inside it. -/
theorem C1_counterexample :
    uniqueRolls (Storage.stored []) ∧
    ¬ uniqueRolls (runOps (Storage.stored [])
      [Op.imp [⟨"C", "R2", 55⟩, ⟨"D", "R2", 60⟩]]) :=
  ⟨by decide, by decide⟩

/-- C1 amended: after any sequence of add and bulk-import operations
starting from a store with unique roll numbers, roll numbers stay unique,
provided every import batch is free of roll numbers repeated inside the
batch itself (collisions with the stored collection are still skipped, and
manual adds always preserve uniqueness). -/
theorem C1_uniqueness (ops : List Op) (st : Storage) (h0 : uniqueRolls st)
    (hops : ∀ op ∈ ops, batchNodup op) : uniqueRolls (runOps st ops) := by
  induction ops generalizing st with
  | nil => exact h0
  | cons op rest ih =>
    exact ih (applyOp st op) (applyOp_unique st op h0 (hops op (by simp)))
      (fun o ho => hops o (by simp [ho]))

/-- C1 witness: an add followed by an import with an internally clean
batch keeps roll numbers unique. -/
theorem C1_uniqueness_witness :
    uniqueRolls (runOps (Storage.stored [])
      [Op.add "A" "R1" 90, Op.imp [⟨"B", "R2", 70⟩]]) :=
  C1_uniqueness [Op.add "A" "R1" 90, Op.imp [⟨"B", "R2", 70⟩]]
    (Storage.stored []) (by decide) (by decide)
